import Mathlib

/-!
Verification of the scheduling/dispatch/retry engine and the bulk-distribution
algorithm of a social-media post scheduler.

Shallow embedding conventions:
* Datetimes are natural numbers counting minutes since the Unix epoch.
  One day is 1440 minutes.  Python's `dt.replace(hour=h, minute=m, second=0,
  microsecond=0)` keeps the date part of `dt` and overwrites the time of day,
  which is `replaceTime` below; `timedelta(days=d)` is `addDays`.
* Daily time-of-day slots (parsed in the source from strings such as "09:00"
  via `hour, minute = map(int, time_str.split(':'))` followed by
  `replace(hour=hour, minute=minute)`) are represented directly as
  minutes-of-day, e.g. 09:00 ↦ 540 and 18:00 ↦ 1080.
* Status fields are the exact strings used by the source
  ("scheduled", "posting", "posted", "partial", "failed", "processing",
  "completed").
* Effectful collaborators (the per-platform publish call, whether
  `schedule_post` succeeds) are passed in as boolean oracles.
-/

set_option maxRecDepth 4000

def minutesPerDay : Nat := 1440

/-- Python `dt.replace(hour, minute, second=0, microsecond=0)`: keep the day,
overwrite the time of day (`hm` in minutes of day). -/
def replaceTime (t hm : Nat) : Nat := t / minutesPerDay * minutesPerDay + hm

/-- Python `dt + timedelta(days=d)`. -/
def addDays (d t : Nat) : Nat := t + d * minutesPerDay

/-- Midnight of 2024-01-01 (day 19723 after the epoch), in minutes. -/
def date20240101 : Nat := 19723 * minutesPerDay

/- ------------------------------------------------------------------
Bulk distribution: `BulkUploadProcessor._create_scheduled_posts`
(src/bulk_upload_service.py lines 239-289).
------------------------------------------------------------------ -/

/-- The `schedule_type` of a bulk upload ('daily', 'immediate', 'custom'). -/
inductive ScheduleType where
  | daily
  | immediate
  | custom
deriving DecidableEq, Repr

/-- One normalized item of `posts_data` as produced by `_extract_post_data`.
`platforms` is `none` when the 'platforms' key is absent (then
`post_data.get('platforms', bulk_upload.target_platforms)` falls back to the
batch default). -/
structure PostData where
  content : String
  platforms : Option (List String)
  hashtags : List String
deriving DecidableEq, Repr

/-- A `Post` row created by `_create_scheduled_posts`. -/
structure NewPost where
  content : String
  scheduledTime : Nat
  target_platforms : List String
  hashtags : List String
deriving DecidableEq, Repr

/-- Loop body of `_create_scheduled_posts`: the mutable loop state is
`currentDate` (`current_date`), `timeIdx` (`post_time_index`) and the
enumeration index `i`.  In the `daily` branch the slot is
`daily_times[post_time_index % len(daily_times)]`, the index advances, and
the date advances one day each time the index wraps around the slot list.
The `immediate` branch schedules at `start_date + i*2` minutes, the `custom`
branch at `start_date + i` hours. -/
def createScheduledPostsGo (ty : ScheduleType) (slots : List Nat) (startDate : Nat)
    (defaultPlatforms : List String) :
    Nat → Nat → Nat → List PostData → List NewPost
  | _, _, _, [] => []
  | currentDate, timeIdx, i, pd :: rest =>
    let scheduledTime :=
      match ty with
      | ScheduleType.daily => replaceTime currentDate (slots.getD (timeIdx % slots.length) 0)
      | ScheduleType.immediate => startDate + i * 2
      | ScheduleType.custom => startDate + i * 60
    let timeIdx' := match ty with
      | ScheduleType.daily => timeIdx + 1
      | _ => timeIdx
    let currentDate' :=
      match ty with
      | ScheduleType.daily =>
          if timeIdx' % slots.length = 0 then currentDate + minutesPerDay else currentDate
      | _ => currentDate
    { content := pd.content, scheduledTime := scheduledTime,
      target_platforms := pd.platforms.getD defaultPlatforms,
      hashtags := pd.hashtags } ::
      createScheduledPostsGo ty slots startDate defaultPlatforms currentDate' timeIdx' (i + 1) rest

/-- `_create_scheduled_posts`: `current_date` starts at `start_date`,
`post_time_index` at 0. -/
def createScheduledPosts (ty : ScheduleType) (slots : List Nat) (startDate : Nat)
    (defaultPlatforms : List String) (posts : List PostData) : List NewPost :=
  createScheduledPostsGo ty slots startDate defaultPlatforms startDate 0 0 posts

/-- Line 247 of src/bulk_upload_service.py: `user.daily_post_times or
['09:00', '18:00']` — an unset/empty slot list falls back to the default. -/
def effectiveDailyTimes (userTimes : List Nat) : List Nat :=
  if userTimes.isEmpty then [540, 1080] else userTimes

/-- Scheduled times of the created posts, in batch order. -/
def scheduledTimes (l : List NewPost) : List Nat := l.map (fun p => p.scheduledTime)

theorem effectiveDailyTimes_ne_nil (userTimes : List Nat) :
    effectiveDailyTimes userTimes ≠ [] := by
  unfold effectiveDailyTimes
  cases userTimes with
  | nil => simp
  | cons a l => simp

/-- Date recurrence of the daily loop: incrementing the slot index by one
advances the date exactly when the index wraps, which matches integer
division of the global index. -/
theorem daily_next_date (L d0 k : Nat) :
    (if (k + 1) % L = 0 then d0 + k / L * minutesPerDay + minutesPerDay
     else d0 + k / L * minutesPerDay) = d0 + (k + 1) / L * minutesPerDay := by
  have hdv := Nat.succ_div k L
  by_cases h : (k + 1) % L = 0
  · have hdvd : L ∣ (k + 1) := Nat.dvd_iff_mod_eq_zero.mpr h
    rw [if_pos h, hdv, if_pos hdvd]
    ring
  · have hdvd : ¬ L ∣ (k + 1) := fun hc => h (Nat.dvd_iff_mod_eq_zero.mp hc)
    rw [if_neg h, hdv, if_neg hdvd]
    simp

theorem daily_go_getD (slots : List Nat) (startDate : Nat) (dp : List String)
    (d0 : Nat) :
    ∀ (rest : List PostData) (k j i : Nat), i < rest.length →
      (scheduledTimes (createScheduledPostsGo ScheduleType.daily slots startDate dp
          (d0 + k / slots.length * minutesPerDay) k j rest)).getD i 0
        = replaceTime (d0 + (k + i) / slots.length * minutesPerDay)
            (slots.getD ((k + i) % slots.length) 0) := by
  intro rest
  induction rest with
  | nil =>
      intro k j i hi
      simp at hi
  | cons pd rest ih =>
      intro k j i hi
      cases i with
      | zero =>
          simp [createScheduledPostsGo, scheduledTimes]
      | succ i =>
          have hstep := daily_next_date slots.length d0 k
          have hi' : i < rest.length := by
            simpa [Nat.succ_lt_succ_iff] using hi
          have hih := ih (k + 1) (j + 1) i hi'
          calc (scheduledTimes (createScheduledPostsGo ScheduleType.daily slots startDate dp
                  (d0 + k / slots.length * minutesPerDay) k j (pd :: rest))).getD (i + 1) 0
              = (scheduledTimes (createScheduledPostsGo ScheduleType.daily slots startDate dp
                  (if (k + 1) % slots.length = 0
                   then d0 + k / slots.length * minutesPerDay + minutesPerDay
                   else d0 + k / slots.length * minutesPerDay) (k + 1) (j + 1) rest)).getD i 0 := by
                simp [createScheduledPostsGo, scheduledTimes]
            _ = (scheduledTimes (createScheduledPostsGo ScheduleType.daily slots startDate dp
                  (d0 + (k + 1) / slots.length * minutesPerDay) (k + 1) (j + 1) rest)).getD i 0 := by
                rw [hstep]
            _ = replaceTime (d0 + (k + (i + 1)) / slots.length * minutesPerDay)
                  (slots.getD ((k + (i + 1)) % slots.length) 0) := by
                rw [show k + (i + 1) = k + 1 + i from by omega]
                exact hih

/-- A minimal well-formed bulk item used in concrete test scenarios. -/
def sampleItem (s : String) : PostData :=
  { content := s, platforms := none, hashtags := [] }

def fiveItems : List PostData :=
  [sampleItem "a", sampleItem "b", sampleItem "c", sampleItem "d", sampleItem "e"]

def threeItems : List PostData :=
  [sampleItem "a", sampleItem "b", sampleItem "c"]

/-- C1: for a Daily bulk batch with slot list `slots` and 0-based item index
`i`, the scheduled time of item `i` is `startDate + (i div len slots)` days
with time of day `slots[i mod len slots]`; with slots 09:00/18:00 and start
date 2024-01-01 the five items land on 01-01T09:00, 01-01T18:00,
01-02T09:00, 01-02T18:00, 01-03T09:00. -/
theorem daily_distribution_slot_cycling (slots : List Nat) (startDate : Nat)
    (dp : List String) (posts : List PostData) (i : Nat)
    (hs : slots ≠ []) (hi : i < posts.length) :
    (scheduledTimes (createScheduledPosts ScheduleType.daily slots startDate dp posts)).getD i 0
      = replaceTime (addDays (i / slots.length) startDate) (slots.getD (i % slots.length) 0)
    ∧ scheduledTimes (createScheduledPosts ScheduleType.daily [540, 1080] date20240101
        ["tiktok", "instagram", "youtube"] fiveItems)
      = [28401660, 28402200, 28403100, 28403640, 28404540] := by
  constructor
  · have h := daily_go_getD slots startDate dp startDate posts 0 0 i hi
    simp only [Nat.zero_div, Nat.zero_mul, Nat.add_zero, Nat.zero_add] at h
    rw [createScheduledPosts, h, addDays]
  · decide

theorem daily_distribution_slot_cycling_witness :
    (([540, 1080] : List Nat) ≠ []) ∧ (0 < fiveItems.length) ∧
    ((scheduledTimes (createScheduledPosts ScheduleType.daily [540, 1080] date20240101
        ["tiktok"] fiveItems)).getD 0 0
      = replaceTime (addDays (0 / ([540, 1080] : List Nat).length) date20240101)
          (([540, 1080] : List Nat).getD (0 % ([540, 1080] : List Nat).length) 0)) :=
  ⟨by decide, by decide,
   (daily_distribution_slot_cycling [540, 1080] date20240101 ["tiktok"] fiveItems 0
      (by decide) (by decide)).1⟩

theorem immediate_go_getD (slots : List Nat) (startDate : Nat) (dp : List String) :
    ∀ (rest : List PostData) (cd tIdx j i : Nat), i < rest.length →
      (scheduledTimes (createScheduledPostsGo ScheduleType.immediate slots startDate dp
          cd tIdx j rest)).getD i 0 = startDate + (j + i) * 2 := by
  intro rest
  induction rest with
  | nil =>
      intro cd tIdx j i hi
      simp at hi
  | cons pd rest ih =>
      intro cd tIdx j i hi
      cases i with
      | zero =>
          simp [createScheduledPostsGo, scheduledTimes]
      | succ i =>
          have hi' : i < rest.length := by
            simpa [Nat.succ_lt_succ_iff] using hi
          have hih := ih cd tIdx (j + 1) i hi'
          calc (scheduledTimes (createScheduledPostsGo ScheduleType.immediate slots startDate dp
                  cd tIdx j (pd :: rest))).getD (i + 1) 0
              = (scheduledTimes (createScheduledPostsGo ScheduleType.immediate slots startDate dp
                  cd tIdx (j + 1) rest)).getD i 0 := by
                simp [createScheduledPostsGo, scheduledTimes]
            _ = startDate + (j + 1 + i) * 2 := hih
            _ = startDate + (j + (i + 1)) * 2 := by
                rw [show j + (i + 1) = j + 1 + i from by omega]

/-- C7: for an Immediate bulk batch with start time `T`, item `i` is
scheduled at `T + i*2` minutes; with 3 items the times are T, T+2m, T+4m. -/
theorem immediate_distribution_stagger (slots : List Nat) (startDate : Nat)
    (dp : List String) (posts : List PostData) (i : Nat) (hi : i < posts.length) :
    (scheduledTimes (createScheduledPosts ScheduleType.immediate slots startDate dp posts)).getD i 0
      = startDate + i * 2
    ∧ scheduledTimes (createScheduledPosts ScheduleType.immediate [] 1000 ["tiktok"] threeItems)
      = [1000, 1002, 1004] := by
  constructor
  · have h := immediate_go_getD slots startDate dp posts startDate 0 0 i hi
    simpa [createScheduledPosts] using h
  · decide

theorem immediate_distribution_stagger_witness :
    (0 < threeItems.length) ∧
    ((scheduledTimes (createScheduledPosts ScheduleType.immediate [] 1000 ["tiktok"]
        threeItems)).getD 0 0 = 1000 + 0 * 2) :=
  ⟨by decide,
   (immediate_distribution_stagger [] 1000 ["tiktok"] threeItems 0 (by decide)).1⟩

/- ------------------------------------------------------------------
Scheduling engine: `schedule_post` / `schedule_retry` (src/scheduler.py).
Job ids mirror the f-strings `post_{post_id}_{int(utcnow().timestamp())}`
and `retry_{queue_id}_{int(utcnow().timestamp())}`; the underscore-separated
decimal rendering is injective in both fields, so the id is modelled as the
pair of numbers under a constructor per shape.
------------------------------------------------------------------ -/

inductive JobId where
  | postJob (postId ts : Nat)
  | retryJob (queueId ts : Nat)
deriving DecidableEq, Repr

/-- One APScheduler job: an id and a `run_date`. -/
structure Job where
  id : JobId
  run_date : Nat
deriving DecidableEq, Repr

/-- APScheduler `add_job(..., id=jid, replace_existing=True)`: the job store
is keyed by id — an existing job with the same id is replaced, otherwise the
job is appended. -/
def addJob (jobs : List Job) (j : Job) : List Job :=
  if jobs.any (fun k => k.id = j.id) then
    jobs.map (fun k => if k.id = j.id then j else k)
  else jobs ++ [j]

def addJobs (jobs : List Job) (new : List Job) : List Job :=
  new.foldl addJob jobs

/-- `schedule_post(post_id)` (src/scheduler.py lines 8-38): builds the job id
from the post id and the current whole-second timestamp, and registers a
date-trigger job at `post.scheduled_for`. -/
def schedule_post (jobs : List Job) (postId scheduled_for now : Nat) : List Job :=
  addJob jobs { id := JobId.postJob postId now, run_date := scheduled_for }

/-- Jobs that would fire `publish_post` for the given post. -/
def isPostJobFor (postId : Nat) (j : Job) : Bool :=
  match j.id with
  | JobId.postJob p _ => p = postId
  | JobId.retryJob _ _ => false

/-- C2 counterexample: scheduling post 7 for t1 = 100 at clock second 0 and
then rescheduling it for t2 = 200 at clock second 1 leaves TWO pending
timers for the same logical post (the job id embeds the wall-clock
timestamp, so the second `add_job` does not replace the first), and the
earlier timer still fires at t1 = 100. -/
theorem schedule_replaces_counterexample :
    ((schedule_post (schedule_post [] 7 100 0) 7 200 1).filter (isPostJobFor 7)).length = 2
    ∧ ((schedule_post (schedule_post [] 7 100 0) 7 200 1).filter
        (isPostJobFor 7)).map (fun j => j.run_date) = [100, 200] := by
  constructor
  · decide
  · decide

/-- C2 amended: rescheduling replaces the pending timer only when both
`schedule_post` calls observe the same whole-second timestamp (then the job
id collides and `replace_existing=True` replaces it, leaving one timer at
t2); calls at different timestamps produce distinct job ids and leave both
timers pending. -/
theorem schedule_replace_same_timestamp_only (postId t1 t2 n1 n2 : Nat) :
    ((n1 = n2 → (schedule_post (schedule_post [] postId t1 n1) postId t2 n2).filter
        (isPostJobFor postId)
        = [{ id := JobId.postJob postId n2, run_date := t2 }])
    ∧ (n1 ≠ n2 → ((schedule_post (schedule_post [] postId t1 n1) postId t2 n2).filter
        (isPostJobFor postId)).length = 2)) := by
  constructor
  · intro h
    subst h
    simp [schedule_post, addJob, isPostJobFor]
  · intro h
    have hne : JobId.postJob postId n1 ≠ JobId.postJob postId n2 := by
      intro hc
      exact h (by injection hc)
    simp [schedule_post, addJob, isPostJobFor, hne]

theorem schedule_replace_same_timestamp_only_witness :
    ((schedule_post (schedule_post [] 7 100 5) 7 200 5).filter (isPostJobFor 7)
      = [{ id := JobId.postJob 7 5, run_date := 200 }])
    ∧ (((schedule_post (schedule_post [] 7 100 5) 7 200 6).filter
        (isPostJobFor 7)).length = 2) :=
  ⟨(schedule_replace_same_timestamp_only 7 100 200 5 5).1 rfl,
   (schedule_replace_same_timestamp_only 7 100 200 5 6).2 (by decide)⟩

/- ------------------------------------------------------------------
Dispatch and retry: `publish_post`, `schedule_retry`, `retry_post`
(src/scheduler.py lines 40-192).  The world is a single post, its
`PostQueue` rows and the pending retry jobs of the scheduling engine.
------------------------------------------------------------------ -/

/-- One `PostQueue` row (a per-platform task). -/
structure QueueItem where
  id : Nat
  post_id : Nat
  platform : String
  status : String
  attempts : Nat
  max_attempts : Nat
  next_attempt : Option Nat
  error_message : Option String
  completed_at : Option Nat
deriving DecidableEq, Repr

/-- The post fields the dispatcher and retry path read or write. -/
structure SPost where
  id : Nat
  status : String
  target_platforms : List String
  posted_at : Option Nat
  error_message : Option String
  platform_post_ids : List String
deriving DecidableEq, Repr

/-- The per-post world: the post row, its queue rows, and the pending retry
jobs registered with the scheduling engine. -/
structure SysState where
  post : SPost
  queue : List QueueItem
  jobs : List Job
deriving DecidableEq, Repr

/-- Modelled from the spec: the `PostQueue` model class is imported by
src/scheduler.py but absent from src/models.py, so the constructor defaults
are taken from the spec — a task is created `Processing` with
`attempts = 0`, and `maxAttempts` is a fixed per-task constant (e.g. 3),
here the parameter `mA`.  Row ids are the DB autoincrement, modelled as the
row's position in the queue list. -/
def newQueueItem (postId qid : Nat) (platform : String) (mA : Nat) : QueueItem :=
  { id := qid, post_id := postId, platform := platform, status := "processing",
    attempts := 0, max_attempts := mA, next_attempt := none,
    error_message := none, completed_at := none }

/-- Accumulated effect of the per-platform loop of `publish_post`. -/
structure LoopOut where
  items : List QueueItem
  newJobs : List Job
  success_count : Nat
  results : List String
deriving DecidableEq, Repr

/-- Per-platform loop of `publish_post` (src/scheduler.py lines 61-89): for
each platform a fresh queue row is created; on success it becomes
`completed` and the platform is recorded in `platform_results`; on failure
`attempts` goes 0 → 1 and, when `attempts < max_attempts`, `next_attempt`
is set to now + 30 minutes and `schedule_retry` registers a retry job
(id `retry_{queue_id}_{now}`, run date `next_attempt`). -/
def publishLoop (postId : Nat) (outcome : String → Bool) (mA now : Nat) :
    List String → Nat → LoopOut
  | [], _ => { items := [], newJobs := [], success_count := 0, results := [] }
  | p :: rest, qid =>
    let tail := publishLoop postId outcome mA now rest (qid + 1)
    if outcome p then
      { items := { newQueueItem postId qid p mA with
                     status := "completed", completed_at := some now } :: tail.items,
        newJobs := tail.newJobs, success_count := tail.success_count + 1,
        results := p :: tail.results }
    else
      let qi1 : QueueItem := { newQueueItem postId qid p mA with
                     status := "failed", error_message := some "Unknown error",
                     attempts := 1 }
      if qi1.attempts < qi1.max_attempts then
        { items := { qi1 with next_attempt := some (now + 30) } :: tail.items,
          newJobs := { id := JobId.retryJob qid now, run_date := now + 30 } :: tail.newJobs,
          success_count := tail.success_count, results := tail.results }
      else
        { items := qi1 :: tail.items, newJobs := tail.newJobs,
          success_count := tail.success_count, results := tail.results }

/-- `publish_post(post_id)` (src/scheduler.py lines 40-107): abort unless the
post is `scheduled`; set it `posting`; run the per-platform loop; then set
the aggregate status from `success_count` — `posted` when every platform
succeeded (with `posted_at = now`), `partial` when at least one did (also
setting `posted_at`), `failed` otherwise; finally store the platform result
map when non-empty.  `outcome` is the oracle for `post_to_platform`. -/
def publish_post (s : SysState) (outcome : String → Bool) (mA now : Nat) : SysState :=
  if s.post.status = "scheduled" then
    let out := publishLoop s.post.id outcome mA now s.post.target_platforms s.queue.length
    let post1 := { s.post with status := "posting" }
    let n := s.post.target_platforms.length
    let post2 :=
      if out.success_count = n then
        { post1 with status := "posted", posted_at := some now }
      else if 0 < out.success_count then
        { post1 with status := "partial", posted_at := some now }
      else
        { post1 with status := "failed",
                     error_message := some "Failed to post to any platform" }
    let post3 :=
      if out.results.isEmpty then post2
      else { post2 with platform_post_ids := out.results }
    { post := post3, queue := s.queue ++ out.items, jobs := addJobs s.jobs out.newJobs }
  else s

/-- `PostQueue.query.get(queue_id)`. -/
def findQueueItem (queue : List QueueItem) (qid : Nat) : Option QueueItem :=
  queue.find? (fun qi => qi.id = qid)

/-- Commit of a mutated row: every row with the same id takes the new value. -/
def updateQueueItem (queue : List QueueItem) (qi : QueueItem) : List QueueItem :=
  queue.map (fun k => if k.id = qi.id then qi else k)

/-- `PostQueue.query.filter_by(post_id=..., status='completed').count()`. -/
def countCompleted (queue : List QueueItem) : Nat :=
  (queue.filter (fun qi => qi.status = "completed")).length

/-- `retry_post(queue_id)` (src/scheduler.py lines 140-192): look the row up;
increment `attempts`; on success complete the row, record the platform
result and — when every row of the post is now `completed` — set the post
`posted` with `posted_at = now`, or `partial` (also setting `posted_at`)
when some row is completed and the post was `failed`; on failure mark the
row `failed` and, while `attempts < max_attempts`, set `next_attempt` to
now + 1 hour and register another retry job. -/
def retry_post (s : SysState) (qid : Nat) (success : Bool) (now : Nat) : SysState :=
  match findQueueItem s.queue qid with
  | none => s
  | some qi =>
    let qi1 := { qi with status := "processing", attempts := qi.attempts + 1 }
    if success then
      let qi2 := { qi1 with status := "completed", completed_at := some now }
      let queue2 := updateQueueItem s.queue qi2
      let post1 := { s.post with
                       platform_post_ids := s.post.platform_post_ids ++ [qi.platform] }
      let post2 :=
        if countCompleted queue2 = queue2.length then
          { post1 with status := "posted", posted_at := some now }
        else if 0 < countCompleted queue2 ∧ post1.status = "failed" then
          { post1 with status := "partial", posted_at := some now }
        else post1
      { s with post := post2, queue := queue2 }
    else
      let qi2 := { qi1 with status := "failed", error_message := some "Unknown error" }
      if qi2.attempts < qi2.max_attempts then
        { s with queue := updateQueueItem s.queue { qi2 with next_attempt := some (now + 60) },
                 jobs := addJob s.jobs { id := JobId.retryJob qid now, run_date := now + 60 } }
      else
        { s with queue := updateQueueItem s.queue qi2 }

/-- Removing a job from the store once it has fired. -/
def removeJob (jobs : List Job) (jid : JobId) : List Job :=
  jobs.filter (fun j => j.id ≠ jid)

/-- A pending retry job fires: it leaves the store and `retry_post` runs on
its queue id. -/
def fireRetry (s : SysState) (j : Job) (success : Bool) (now : Nat) : SysState :=
  let s1 : SysState := { s with jobs := removeJob s.jobs j.id }
  match j.id with
  | JobId.retryJob qid _ => retry_post s1 qid success now
  | JobId.postJob _ _ => s1

/-- A freshly scheduled post: no queue rows, no pending retry jobs. -/
def initState (postId : Nat) (platforms : List String) : SysState :=
  { post := { id := postId, status := "scheduled", target_platforms := platforms,
              posted_at := none, error_message := none, platform_post_ids := [] },
    queue := [], jobs := [] }

/-- One step of the system: the dispatch job fires (`publish_post` with some
publish outcomes at some time), or one of the pending retry jobs fires. -/
inductive Step (mA : Nat) : SysState → SysState → Prop where
  | publish (s : SysState) (outcome : String → Bool) (now : Nat) :
      Step mA s (publish_post s outcome mA now)
  | retryFire (s : SysState) (j : Job) (success : Bool) (now : Nat)
      (hj : j ∈ s.jobs) : Step mA s (fireRetry s j success now)

/-- States reachable from a given state by dispatch and retry steps. -/
def Reachable (mA : Nat) (s0 s : SysState) : Prop :=
  Relation.ReflTransGen (Step mA) s0 s

/-- C8: a dispatch firing for a post that is not in `scheduled` status is a
no-op — the state (post, queue rows, pending jobs) is returned unchanged
and no error is raised. -/
theorem dispatch_nonscheduled_noop (s : SysState) (outcome : String → Bool)
    (mA now : Nat) (h : s.post.status ≠ "scheduled") :
    publish_post s outcome mA now = s := by
  unfold publish_post
  rw [if_neg h]

def postedState : SysState :=
  { post := { id := 1, status := "posted", target_platforms := ["tiktok"],
              posted_at := some 5, error_message := none,
              platform_post_ids := ["tiktok"] },
    queue := [], jobs := [] }

theorem dispatch_nonscheduled_noop_witness :
    publish_post postedState (fun _ => true) 3 99 = postedState :=
  dispatch_nonscheduled_noop postedState (fun _ => true) 3 99 (by decide)

/- ------------------------------------------------------------------
Status aggregation (claim C5) and postedAt (claim C6).
------------------------------------------------------------------ -/

/-- Modelled from the spec (for comparison with the code): a task is
terminally Failed when its status is Failed and `attempts = maxAttempts`. -/
def terminallyFailed (qi : QueueItem) : Bool :=
  qi.status == "failed" && qi.attempts == qi.max_attempts

/-- Modelled from the spec (for comparison with the code): `Posted` iff all
tasks Completed. -/
def aggPostedCond (tasks : List QueueItem) : Bool :=
  tasks.all (fun qi => qi.status == "completed")

/-- Modelled from the spec (for comparison with the code): `Partial` iff at
least one task Completed, at least one terminally Failed, and none
Pending/Processing. -/
def aggPartialCond (tasks : List QueueItem) : Bool :=
  tasks.any (fun qi => qi.status == "completed") && tasks.any terminallyFailed &&
    tasks.all (fun qi => !(qi.status == "pending") && !(qi.status == "processing"))

/-- Modelled from the spec (for comparison with the code): `Failed` iff all
tasks are terminally Failed. -/
def aggFailedCond (tasks : List QueueItem) : Bool :=
  tasks.all terminallyFailed

/-- Dispatch of a two-platform post where platform "a" succeeds and "b"
fails its first attempt (two retries still to come). -/
def c5State : SysState :=
  publish_post (initState 1 ["a", "b"]) (fun p => p == "a") 3 50

/-- C5 counterexample: after the dispatch transition the post status is
"partial", but the spec aggregation of its task set is neither Posted nor
Partial nor Failed (the failed task still has retries pending, so it is not
terminally Failed): the post is in an in-flight aggregate state while its
stored status says partial. -/
theorem status_not_spec_aggregate_counterexample :
    c5State.post.status = "partial" ∧ aggPartialCond c5State.queue = false ∧
    aggPostedCond c5State.queue = false ∧ aggFailedCond c5State.queue = false := by
  refine ⟨?_, ?_, ?_, ?_⟩ <;> decide

theorem publishLoop_success_count (postId : Nat) (outcome : String → Bool)
    (mA now : Nat) :
    ∀ (ps : List String) (qid : Nat),
      (publishLoop postId outcome mA now ps qid).success_count = ps.countP outcome := by
  intro ps
  induction ps with
  | nil =>
      intro qid
      simp [publishLoop, List.countP, List.countP.go]
  | cons p rest ih =>
      intro qid
      by_cases h : outcome p
      · simp [publishLoop, h, ih, List.countP_cons]
      · by_cases h2 : 1 < mA
        · simp [publishLoop, h, h2, ih, List.countP_cons, newQueueItem]
        · simp [publishLoop, h, h2, ih, List.countP_cons, newQueueItem]

theorem publish_post_status_of_scheduled (s : SysState) (outcome : String → Bool)
    (mA now : Nat) (hs : s.post.status = "scheduled") :
    (publish_post s outcome mA now).post.status =
      (if s.post.target_platforms.countP outcome = s.post.target_platforms.length
       then "posted"
       else if 0 < s.post.target_platforms.countP outcome then "partial"
       else "failed") := by
  unfold publish_post
  rw [if_pos hs]
  simp only [publishLoop_success_count]
  by_cases h1 : s.post.target_platforms.countP outcome = s.post.target_platforms.length
  · simp [h1, apply_ite SPost.status]
  · by_cases h2 : 0 < s.post.target_platforms.countP outcome
    · simp [h1, h2, apply_ite SPost.status]
    · simp [h1, h2, apply_ite SPost.status]

/-- C5 amended: the post status is not the spec's pure aggregation of task
states; after a dispatch pass it reflects only that pass's outcomes —
`posted` iff every platform succeeded, `partial` iff at least one (but not
all) succeeded, `failed` iff none did — counting a failed task as failed
even while its retries are still pending. -/
theorem status_is_pass_outcome_aggregate (s : SysState) (outcome : String → Bool)
    (mA now : Nat) (hs : s.post.status = "scheduled") :
    (publish_post s outcome mA now).post.status =
      (if s.post.target_platforms.all outcome then "posted"
       else if s.post.target_platforms.any outcome then "partial"
       else "failed") := by
  rw [publish_post_status_of_scheduled s outcome mA now hs]
  have hall : (s.post.target_platforms.countP outcome = s.post.target_platforms.length)
      = (s.post.target_platforms.all outcome = true) := by
    rw [eq_iff_iff]
    constructor
    · intro h
      rw [List.all_eq_true]
      intro a ha
      exact (List.countP_eq_length.mp h) a ha
    · intro h
      exact List.countP_eq_length.mpr (List.all_eq_true.mp h)
  have hany : (0 < s.post.target_platforms.countP outcome)
      = (s.post.target_platforms.any outcome = true) := by
    rw [eq_iff_iff, List.countP_pos_iff, List.any_eq_true]
  by_cases h1 : s.post.target_platforms.all outcome
  · rw [if_pos (hall ▸ h1), if_pos h1]
  · rw [if_neg (by rw [hall]; exact fun hc => h1 hc), if_neg h1]
    by_cases h2 : s.post.target_platforms.any outcome
    · rw [if_pos (hany ▸ h2), if_pos h2]
    · rw [if_neg (by rw [hany]; exact fun hc => h2 hc), if_neg h2]

theorem status_is_pass_outcome_aggregate_witness :
    (publish_post (initState 1 ["a", "b"]) (fun p => p == "a") 3 50).post.status
      = (if (["a", "b"] : List String).all (fun p => p == "a") then "posted"
         else if (["a", "b"] : List String).any (fun p => p == "a") then "partial"
         else "failed") :=
  status_is_pass_outcome_aggregate (initState 1 ["a", "b"]) (fun p => p == "a") 3 50 rfl

/-- Dispatch at t = 100 of a two-platform post: "a" succeeds, "b" fails and
gets a retry scheduled. -/
def c6Dispatch : SysState :=
  publish_post (initState 1 ["a", "b"]) (fun p => p == "a") 3 100

/-- The retry job left pending by `c6Dispatch`. -/
def c6RetryJob : Job := { id := JobId.retryJob 1 100, run_date := 130 }

/-- The pending retry fires at t = 200 and succeeds, completing the last
task. -/
def c6AfterRetry : SysState := fireRetry c6Dispatch c6RetryJob true 200

/-- C6 counterexample: `posted_at` is set to 100 when the first task
completes during dispatch, but the later retry that completes the second
task OVERWRITES it with 200 — the claim that it is assigned exactly once at
the first completion and never overwritten is false. -/
theorem postedAt_overwritten_counterexample :
    c6RetryJob ∈ c6Dispatch.jobs ∧
    c6Dispatch.post.posted_at = some 100 ∧
    c6AfterRetry.post.status = "posted" ∧
    c6AfterRetry.post.posted_at = some 200 := by
  refine ⟨?_, ?_, ?_, ?_⟩ <;> decide

theorem publish_post_posted_at_of_success (s : SysState) (outcome : String → Bool)
    (mA now : Nat) (hs : s.post.status = "scheduled")
    (h1 : 0 < s.post.target_platforms.countP outcome) :
    (publish_post s outcome mA now).post.posted_at = some now := by
  unfold publish_post
  rw [if_pos hs]
  simp only [publishLoop_success_count]
  by_cases hall : s.post.target_platforms.countP outcome = s.post.target_platforms.length
  · simp [hall, apply_ite SPost.posted_at]
  · simp [hall, h1, apply_ite SPost.posted_at]

theorem retry_post_posted_at_of_all_completed (s : SysState) (qid now : Nat)
    (qi : QueueItem) (hf : findQueueItem s.queue qid = some qi)
    (hall : countCompleted (retry_post s qid true now).queue
      = (retry_post s qid true now).queue.length) :
    (retry_post s qid true now).post.posted_at = some now := by
  unfold retry_post at hall ⊢
  rw [hf] at hall ⊢
  by_cases hc : countCompleted (updateQueueItem s.queue
      { qi with status := "completed", attempts := qi.attempts + 1,
                completed_at := some now })
    = (updateQueueItem s.queue
      { qi with status := "completed", attempts := qi.attempts + 1,
                completed_at := some now }).length
  · simp [hc]
  · simp [hc] at hall

/-- C6 amended: `posted_at` is not write-once.  It is (re)assigned to the
current time at the end of every dispatch pass with at least one success,
and again by any retry whose success completes the post's last remaining
task — so the final value is the time of the last such resolution, not the
first success. -/
theorem postedAt_set_on_each_escalation
    (s : SysState) (outcome : String → Bool) (mA now : Nat)
    (s2 : SysState) (qid now2 : Nat) (qi : QueueItem)
    (hs : s.post.status = "scheduled")
    (h1 : 0 < s.post.target_platforms.countP outcome)
    (hf : findQueueItem s2.queue qid = some qi)
    (hall : countCompleted (retry_post s2 qid true now2).queue
      = (retry_post s2 qid true now2).queue.length) :
    (publish_post s outcome mA now).post.posted_at = some now ∧
    (retry_post s2 qid true now2).post.posted_at = some now2 :=
  ⟨publish_post_posted_at_of_success s outcome mA now hs h1,
   retry_post_posted_at_of_all_completed s2 qid now2 qi hf hall⟩

theorem postedAt_set_on_each_escalation_witness :
    (publish_post (initState 1 ["a", "b"]) (fun p => p == "a") 3 100).post.posted_at
        = some 100 ∧
    (retry_post { c6Dispatch with jobs := removeJob c6Dispatch.jobs c6RetryJob.id }
        1 true 200).post.posted_at = some 200 :=
  postedAt_set_on_each_escalation (initState 1 ["a", "b"]) (fun p => p == "a") 3 100
    { c6Dispatch with jobs := removeJob c6Dispatch.jobs c6RetryJob.id } 1 200
    { id := 1, post_id := 1, platform := "b", status := "failed", attempts := 1,
      max_attempts := 3, next_attempt := some 130,
      error_message := some "Unknown error", completed_at := none }
    rfl (by decide) (by decide) (by decide)

/- ------------------------------------------------------------------
Retry bookkeeping invariants (claims C3 and C4).
------------------------------------------------------------------ -/

/-- The queue row a retry job would act on. -/
def retryTarget : JobId → Option Nat
  | JobId.retryJob q _ => some q
  | JobId.postJob _ _ => none

theorem publishLoop_items_mem (postId : Nat) (outcome : String → Bool) (mA now : Nat) :
    ∀ (ps : List String) (qid : Nat),
      ∀ qi ∈ (publishLoop postId outcome mA now ps qid).items,
        qid ≤ qi.id ∧ qi.id < qid + ps.length ∧ qi.attempts ≤ 1 ∧
        qi.max_attempts = mA ∧ (qi.status = "failed" → qi.attempts = 1) := by
  intro ps
  induction ps with
  | nil =>
      intro qid qi hqi
      simp [publishLoop] at hqi
  | cons p rest ih =>
      intro qid qi hqi
      by_cases h : outcome p
      · simp only [publishLoop, h, if_true, List.mem_cons] at hqi
        rcases hqi with hqi | hqi
        · subst hqi
          simp [newQueueItem]
        · obtain ⟨a1, a2, a3, a4, a5⟩ := ih (qid + 1) qi hqi
          exact ⟨by omega, by simp only [List.length_cons]; omega, a3, a4, a5⟩
      · by_cases h2 : (1 : Nat) < mA
        · simp only [publishLoop, h, if_false, Bool.false_eq_true, ite_false,
            newQueueItem, h2, if_true, List.mem_cons] at hqi
          rcases hqi with hqi | hqi
          · subst hqi
            simp [newQueueItem]
          · obtain ⟨a1, a2, a3, a4, a5⟩ := ih (qid + 1) qi hqi
            exact ⟨by omega, by simp only [List.length_cons]; omega, a3, a4, a5⟩
        · simp only [publishLoop, h, if_false, Bool.false_eq_true, ite_false,
            newQueueItem, h2, List.mem_cons] at hqi
          rcases hqi with hqi | hqi
          · subst hqi
            simp [newQueueItem]
          · obtain ⟨a1, a2, a3, a4, a5⟩ := ih (qid + 1) qi hqi
            exact ⟨by omega, by simp only [List.length_cons]; omega, a3, a4, a5⟩

theorem publishLoop_jobs_mem (postId : Nat) (outcome : String → Bool) (mA now : Nat) :
    ∀ (ps : List String) (qid : Nat),
      ∀ j ∈ (publishLoop postId outcome mA now ps qid).newJobs,
        ∃ q, j.id = JobId.retryJob q now ∧ j.run_date = now + 30 ∧
          qid ≤ q ∧ q < qid + ps.length ∧ 1 < mA := by
  intro ps
  induction ps with
  | nil =>
      intro qid j hj
      simp [publishLoop] at hj
  | cons p rest ih =>
      intro qid j hj
      by_cases h : outcome p
      · simp only [publishLoop, h, if_true] at hj
        obtain ⟨q, h1, h2, h3, h4, h5⟩ := ih (qid + 1) j hj
        exact ⟨q, h1, h2, by omega, by simp only [List.length_cons]; omega, h5⟩
      · by_cases h2 : (1 : Nat) < mA
        · simp only [publishLoop, h, if_false, Bool.false_eq_true, ite_false,
            newQueueItem, h2, if_true, List.mem_cons] at hj
          rcases hj with hj | hj
          · subst hj
            exact ⟨qid, rfl, rfl, Nat.le_refl qid,
              by simp only [List.length_cons]; omega, h2⟩
          · obtain ⟨q, h1, hr, h3, h4, h5⟩ := ih (qid + 1) j hj
            exact ⟨q, h1, hr, by omega, by simp only [List.length_cons]; omega, h5⟩
        · simp only [publishLoop, h, if_false, Bool.false_eq_true, ite_false,
            newQueueItem, h2] at hj
          obtain ⟨q, h1, hr, h3, h4, h5⟩ := ih (qid + 1) j hj
          exact ⟨q, h1, hr, by omega, by simp only [List.length_cons]; omega, h5⟩

theorem publishLoop_job_att (postId : Nat) (outcome : String → Bool) (mA now : Nat) :
    ∀ (ps : List String) (qid : Nat),
      ∀ j ∈ (publishLoop postId outcome mA now ps qid).newJobs,
        ∀ qi ∈ (publishLoop postId outcome mA now ps qid).items,
          retryTarget j.id = some qi.id →
          1 ≤ qi.attempts ∧ qi.attempts < qi.max_attempts := by
  intro ps
  induction ps with
  | nil =>
      intro qid j hj
      simp [publishLoop] at hj
  | cons p rest ih =>
      intro qid j hj qi hqi htgt
      by_cases h : outcome p
      · simp only [publishLoop, h, if_true, List.mem_cons] at hj hqi
        obtain ⟨q, hid, _, hge, _, _⟩ := publishLoop_jobs_mem postId outcome mA now
          rest (qid + 1) j hj
        rcases hqi with hqi | hqi
        · exfalso
          subst hqi
          rw [hid] at htgt
          simp only [retryTarget, Option.some.injEq, newQueueItem] at htgt
          omega
        · exact ih (qid + 1) j hj qi hqi htgt
      · by_cases h2 : (1 : Nat) < mA
        · simp only [publishLoop, h, if_false, Bool.false_eq_true, ite_false,
            newQueueItem, h2, if_true, List.mem_cons] at hj hqi
          rcases hj with hj | hj
          · subst hj
            simp only [retryTarget, Option.some.injEq] at htgt
            rcases hqi with hqi | hqi
            · subst hqi
              simp [newQueueItem]
              omega
            · exfalso
              obtain ⟨hge, _, _, _, _⟩ := publishLoop_items_mem postId outcome mA now
                rest (qid + 1) qi hqi
              omega
          · obtain ⟨q, hid, _, hge, _, _⟩ := publishLoop_jobs_mem postId outcome mA now
              rest (qid + 1) j hj
            rcases hqi with hqi | hqi
            · exfalso
              subst hqi
              rw [hid] at htgt
              simp only [retryTarget, Option.some.injEq] at htgt
              omega
            · exact ih (qid + 1) j hj qi hqi htgt
        · simp only [publishLoop, h, if_false, Bool.false_eq_true, ite_false,
            newQueueItem, h2, List.mem_cons] at hj hqi
          obtain ⟨q, hid, _, hge, _, _⟩ := publishLoop_jobs_mem postId outcome mA now
            rest (qid + 1) j hj
          rcases hqi with hqi | hqi
          · exfalso
            subst hqi
            rw [hid] at htgt
            simp only [retryTarget, Option.some.injEq] at htgt
            omega
          · exact ih (qid + 1) j hj qi hqi htgt

theorem publishLoop_jobs_uniq (postId : Nat) (outcome : String → Bool) (mA now : Nat) :
    ∀ (ps : List String) (qid : Nat),
      ∀ j ∈ (publishLoop postId outcome mA now ps qid).newJobs,
        ∀ j' ∈ (publishLoop postId outcome mA now ps qid).newJobs,
          ∀ q, retryTarget j.id = some q → retryTarget j'.id = some q →
            j.id = j'.id := by
  intro ps
  induction ps with
  | nil =>
      intro qid j hj
      simp [publishLoop] at hj
  | cons p rest ih =>
      intro qid j hj j' hj' q htgt htgt'
      by_cases h : outcome p
      · simp only [publishLoop, h, if_true] at hj hj'
        exact ih (qid + 1) j hj j' hj' q htgt htgt'
      · by_cases h2 : (1 : Nat) < mA
        · simp only [publishLoop, h, if_false, Bool.false_eq_true, ite_false,
            newQueueItem, h2, if_true, List.mem_cons] at hj hj'
          rcases hj with hj | hj <;> rcases hj' with hj' | hj'
          · rw [hj, hj']
          · exfalso
            subst hj
            simp only [retryTarget, Option.some.injEq] at htgt
            obtain ⟨q', hid, _, hge, _, _⟩ := publishLoop_jobs_mem postId outcome mA now
              rest (qid + 1) j' hj'
            rw [hid] at htgt'
            simp only [retryTarget, Option.some.injEq] at htgt'
            omega
          · exfalso
            subst hj'
            simp only [retryTarget, Option.some.injEq] at htgt'
            obtain ⟨q', hid, _, hge, _, _⟩ := publishLoop_jobs_mem postId outcome mA now
              rest (qid + 1) j hj
            rw [hid] at htgt
            simp only [retryTarget, Option.some.injEq] at htgt
            omega
          · exact ih (qid + 1) j hj j' hj' q htgt htgt'
        · simp only [publishLoop, h, if_false, Bool.false_eq_true, ite_false,
            newQueueItem, h2] at hj hj'
          exact ih (qid + 1) j hj j' hj' q htgt htgt'

theorem publishLoop_jobs_pairwise (postId : Nat) (outcome : String → Bool) (mA now : Nat) :
    ∀ (ps : List String) (qid : Nat),
      List.Pairwise (fun a b => a.id ≠ b.id)
        (publishLoop postId outcome mA now ps qid).newJobs := by
  intro ps
  induction ps with
  | nil =>
      intro qid
      simp [publishLoop]
  | cons p rest ih =>
      intro qid
      by_cases h : outcome p
      · simp only [publishLoop, h, if_true]
        exact ih (qid + 1)
      · by_cases h2 : (1 : Nat) < mA
        · simp only [publishLoop, h, if_false, Bool.false_eq_true, ite_false,
            newQueueItem, h2, if_true]
          refine List.Pairwise.cons ?_ (ih (qid + 1))
          intro b hb hc
          obtain ⟨q', hid, _, hge, _, _⟩ := publishLoop_jobs_mem postId outcome mA now
            rest (qid + 1) b hb
          rw [hid] at hc
          simp only [JobId.retryJob.injEq] at hc
          omega
        · simp only [publishLoop, h, if_false, Bool.false_eq_true, ite_false,
            newQueueItem, h2]
          exact ih (qid + 1)

theorem addJob_of_fresh (jobs : List Job) (j : Job)
    (h : ∀ k ∈ jobs, k.id ≠ j.id) : addJob jobs j = jobs ++ [j] := by
  unfold addJob
  rw [if_neg]
  simp only [List.any_eq_true, decide_eq_true_eq, not_exists, not_and]
  intro k hk
  exact h k hk

theorem addJobs_of_fresh : ∀ (new jobs : List Job),
    (∀ j ∈ new, ∀ k ∈ jobs, k.id ≠ j.id) →
    List.Pairwise (fun a b => a.id ≠ b.id) new →
    addJobs jobs new = jobs ++ new := by
  intro new
  induction new with
  | nil =>
      intro jobs _ _
      simp [addJobs]
  | cons j t ih =>
      intro jobs hdis hpw
      have h1 : addJob jobs j = jobs ++ [j] :=
        addJob_of_fresh jobs j (hdis j (List.mem_cons_self j t))
      have h2 : addJobs jobs (j :: t) = addJobs (addJob jobs j) t := rfl
      rw [h2, h1, ih (jobs ++ [j]) ?_ (List.Pairwise.sublist (List.sublist_cons_self j t) hpw)]
      · simp
      · intro j' hj' k hk
        rcases List.mem_append.mp hk with hk | hk
        · exact hdis j' (List.mem_cons_of_mem j hj') k hk
        · rw [List.mem_singleton.mp hk]
          exact (List.pairwise_cons.mp hpw).1 j' hj'

theorem findQueueItem_eq_some (queue : List QueueItem) (qid : Nat) (qi : QueueItem)
    (h : findQueueItem queue qid = some qi) : qi ∈ queue ∧ qi.id = qid := by
  unfold findQueueItem at h
  refine ⟨List.mem_of_find?_eq_some h, ?_⟩
  have h2 := List.find?_some h
  simpa using h2

theorem mem_updateQueueItem (queue : List QueueItem) (qi : QueueItem) (k : QueueItem)
    (hk : k ∈ updateQueueItem queue qi) : k = qi ∨ (k ∈ queue ∧ k.id ≠ qi.id) := by
  unfold updateQueueItem at hk
  rcases List.mem_map.mp hk with ⟨a, ha, hmap⟩
  by_cases h : a.id = qi.id
  · left
    rw [← hmap, if_pos h]
  · right
    rw [← hmap, if_neg h]
    exact ⟨ha, h⟩

theorem mem_removeJob (jobs : List Job) (jid : JobId) (k : Job)
    (hk : k ∈ removeJob jobs jid) : k ∈ jobs ∧ k.id ≠ jid := by
  unfold removeJob at hk
  have := List.mem_filter.mp hk
  simpa using this

/-- Bookkeeping invariant preserved by every dispatch/retry step (for
`mA ≥ 1`): attempts stay within `max_attempts`; every pending retry job
points at a failed-but-retryable row (`1 ≤ attempts < max_attempts`); at
most one pending retry job per queue row; and a still-`scheduled` post has
no rows or jobs yet. -/
structure SysInv (s : SysState) : Prop where
  att_le : ∀ qi ∈ s.queue, qi.attempts ≤ qi.max_attempts
  job_att : ∀ j ∈ s.jobs, ∀ qi ∈ s.queue, retryTarget j.id = some qi.id →
      1 ≤ qi.attempts ∧ qi.attempts < qi.max_attempts
  uniq : ∀ j ∈ s.jobs, ∀ j' ∈ s.jobs, ∀ q, retryTarget j.id = some q →
      retryTarget j'.id = some q → j.id = j'.id
  sched_empty : s.post.status = "scheduled" → s.queue = [] ∧ s.jobs = []

theorem inv_initState (postId : Nat) (platforms : List String) :
    SysInv (initState postId platforms) := by
  refine ⟨?_, ?_, ?_, ?_⟩
  · intro qi hqi
    simp [initState] at hqi
  · intro j hj
    simp [initState] at hj
  · intro j hj
    simp [initState] at hj
  · intro _
    exact ⟨rfl, rfl⟩

theorem publish_post_queue_eq (s : SysState) (outcome : String → Bool) (mA now : Nat)
    (h : s.post.status = "scheduled") :
    (publish_post s outcome mA now).queue = s.queue ++
      (publishLoop s.post.id outcome mA now s.post.target_platforms s.queue.length).items := by
  unfold publish_post
  rw [if_pos h]

theorem publish_post_jobs_eq (s : SysState) (outcome : String → Bool) (mA now : Nat)
    (h : s.post.status = "scheduled") :
    (publish_post s outcome mA now).jobs = addJobs s.jobs
      (publishLoop s.post.id outcome mA now s.post.target_platforms s.queue.length).newJobs := by
  unfold publish_post
  rw [if_pos h]

theorem publish_post_status_ne_scheduled (s : SysState) (outcome : String → Bool)
    (mA now : Nat) (h : s.post.status = "scheduled") :
    (publish_post s outcome mA now).post.status ≠ "scheduled" := by
  rw [publish_post_status_of_scheduled s outcome mA now h]
  split
  · decide
  · split
    · decide
    · decide

theorem sysInv_publish (mA : Nat) (hmA : 1 ≤ mA) (s : SysState) (hInv : SysInv s)
    (outcome : String → Bool) (now : Nat) : SysInv (publish_post s outcome mA now) := by
  by_cases h : s.post.status = "scheduled"
  case neg =>
    rw [dispatch_nonscheduled_noop s outcome mA now h]
    exact hInv
  case pos =>
    obtain ⟨hq0, hj0⟩ := hInv.sched_empty h
    have hqueue := publish_post_queue_eq s outcome mA now h
    have hjobs := publish_post_jobs_eq s outcome mA now h
    rw [hq0] at hqueue hjobs
    rw [hj0] at hjobs
    rw [addJobs_of_fresh _ [] (by intro j _ k hk; simp at hk)
        (publishLoop_jobs_pairwise s.post.id outcome mA now s.post.target_platforms _)] at hjobs
    rw [List.nil_append] at hqueue hjobs
    refine ⟨?_, ?_, ?_, ?_⟩
    · intro qi hqi
      rw [hqueue] at hqi
      obtain ⟨_, _, ha, hm, _⟩ := publishLoop_items_mem s.post.id outcome mA now
        s.post.target_platforms _ qi hqi
      omega
    · intro j hj qi hqi htgt
      rw [hjobs] at hj
      rw [hqueue] at hqi
      exact publishLoop_job_att s.post.id outcome mA now s.post.target_platforms _
        j hj qi hqi htgt
    · intro j hj j' hj' q htgt htgt'
      rw [hjobs] at hj hj'
      exact publishLoop_jobs_uniq s.post.id outcome mA now s.post.target_platforms _
        j hj j' hj' q htgt htgt'
    · intro hc
      exact absurd hc (publish_post_status_ne_scheduled s outcome mA now h)

theorem sysInv_jobs_subset (s : SysState) (hInv : SysInv s) (jobs' : List Job)
    (hsub : ∀ k ∈ jobs', k ∈ s.jobs) : SysInv { s with jobs := jobs' } := by
  refine ⟨?_, ?_, ?_, ?_⟩
  · intro qi hqi
    exact hInv.att_le qi hqi
  · intro k hk qi hqi htgt
    exact hInv.job_att k (hsub k hk) qi hqi htgt
  · intro k hk k' hk' q htgt htgt'
    exact hInv.uniq k (hsub k hk) k' (hsub k' hk') q htgt htgt'
  · intro hc
    obtain ⟨hq, hjj⟩ := hInv.sched_empty hc
    refine ⟨hq, List.eq_nil_iff_forall_not_mem.mpr ?_⟩
    intro k hk
    have := hsub k hk
    rw [hjj] at this
    simp at this

theorem retry_post_none (s : SysState) (qid : Nat) (succ : Bool) (now : Nat)
    (h : findQueueItem s.queue qid = none) : retry_post s qid succ now = s := by
  unfold retry_post
  rw [h]

theorem retry_post_success_queue (s : SysState) (qid now : Nat) (qi : QueueItem)
    (h : findQueueItem s.queue qid = some qi) :
    (retry_post s qid true now).queue = updateQueueItem s.queue
      { qi with status := "completed", attempts := qi.attempts + 1,
                completed_at := some now } := by
  unfold retry_post
  rw [h]
  rfl

theorem retry_post_success_jobs (s : SysState) (qid now : Nat) (qi : QueueItem)
    (h : findQueueItem s.queue qid = some qi) :
    (retry_post s qid true now).jobs = s.jobs := by
  unfold retry_post
  rw [h]
  rfl

theorem retry_post_post_status (s : SysState) (qid : Nat) (succ : Bool) (now : Nat) :
    (retry_post s qid succ now).post.status = "posted" ∨
    (retry_post s qid succ now).post.status = "partial" ∨
    (retry_post s qid succ now).post.status = s.post.status := by
  unfold retry_post
  rcases hfind : findQueueItem s.queue qid with _ | qi
  · right; right; rfl
  · cases succ
    · by_cases hlt : qi.attempts + 1 < qi.max_attempts
      · simp only [Bool.false_eq_true, if_false, hlt, if_true]
        right; right; trivial
      · simp only [Bool.false_eq_true, if_false, hlt, ite_false]
        right; right; trivial
    · simp only [if_true]
      split
      · left; rfl
      · split
        · right; left; rfl
        · right; right; rfl

theorem retry_post_failure_retry_eq (s : SysState) (qid now : Nat) (qi : QueueItem)
    (h : findQueueItem s.queue qid = some qi)
    (hlt : qi.attempts + 1 < qi.max_attempts) :
    retry_post s qid false now =
      { s with
        queue := updateQueueItem s.queue
          { qi with status := "failed", attempts := qi.attempts + 1,
                    next_attempt := some (now + 60),
                    error_message := some "Unknown error" },
        jobs := addJob s.jobs { id := JobId.retryJob qid now, run_date := now + 60 } } := by
  unfold retry_post
  rw [h]
  simp only [Bool.false_eq_true, if_false, hlt, if_true]

theorem retry_post_failure_noretry_eq (s : SysState) (qid now : Nat) (qi : QueueItem)
    (h : findQueueItem s.queue qid = some qi)
    (hlt : ¬ qi.attempts + 1 < qi.max_attempts) :
    retry_post s qid false now =
      { s with
        queue := updateQueueItem s.queue
          { qi with status := "failed", attempts := qi.attempts + 1,
                    error_message := some "Unknown error" } } := by
  unfold retry_post
  rw [h]
  simp only [Bool.false_eq_true, if_false, hlt, ite_false]

theorem sysInv_retryFire (s : SysState) (hInv : SysInv s) (j : Job) (hj : j ∈ s.jobs)
    (succ : Bool) (now : Nat) : SysInv (fireRetry s j succ now) := by
  have hstat : s.post.status ≠ "scheduled" := by
    intro hc
    obtain ⟨_, hj0⟩ := hInv.sched_empty hc
    rw [hj0] at hj
    simp at hj
  have hsubInv : SysInv { s with jobs := removeJob s.jobs j.id } :=
    sysInv_jobs_subset s hInv _ (fun k hk => (mem_removeJob s.jobs j.id k hk).1)
  cases hjid : j.id with
  | postJob p ts =>
      have heq : fireRetry s j succ now = { s with jobs := removeJob s.jobs j.id } := by
        unfold fireRetry
        rw [hjid]
      rw [heq]
      exact hsubInv
  | retryJob qid ts =>
      have htgtj : retryTarget j.id = some qid := by rw [hjid]; rfl
      have heq : fireRetry s j succ now
          = retry_post { s with jobs := removeJob s.jobs j.id } qid succ now := by
        unfold fireRetry
        rw [hjid]
      rw [heq]
      have hnone : ∀ k ∈ removeJob s.jobs j.id, ¬ retryTarget k.id = some qid := by
        intro k hk hc
        obtain ⟨hkmem, hkid⟩ := mem_removeJob s.jobs j.id k hk
        exact hkid (hInv.uniq k hkmem j hj qid hc htgtj)
      rcases hfind : findQueueItem s.queue qid with _ | qi
      · rw [retry_post_none { s with jobs := removeJob s.jobs j.id } qid succ now hfind]
        exact hsubInv
      · obtain ⟨hmem, hid⟩ := findQueueItem_eq_some s.queue qid qi hfind
        have hatt := hInv.job_att j hj qi hmem (by rw [htgtj, hid])
        cases succ with
        | true =>
            have hQ := retry_post_success_queue
              { s with jobs := removeJob s.jobs j.id } qid now qi hfind
            have hJ := retry_post_success_jobs
              { s with jobs := removeJob s.jobs j.id } qid now qi hfind
            have hS := retry_post_post_status
              { s with jobs := removeJob s.jobs j.id } qid true now
            refine ⟨?_, ?_, ?_, ?_⟩
            · intro k hk
              rw [hQ] at hk
              rcases mem_updateQueueItem _ _ k hk with hk2 | ⟨hk2, _⟩
              · subst hk2
                exact Nat.succ_le_of_lt hatt.2
              · exact hInv.att_le k hk2
            · intro k hk qi' hqi' htgt
              rw [hJ] at hk
              rw [hQ] at hqi'
              rcases mem_updateQueueItem _ _ qi' hqi' with h2 | ⟨h2, hne⟩
              · exfalso
                subst h2
                have h3 : retryTarget k.id = some qi.id := htgt
                rw [hid] at h3
                exact hnone k hk h3
              · exact hInv.job_att k (mem_removeJob s.jobs j.id k hk).1 qi' h2 htgt
            · intro k hk k' hk' q htgt htgt'
              rw [hJ] at hk hk'
              exact hsubInv.uniq k hk k' hk' q htgt htgt'
            · intro hc
              rcases hS with h1 | h1 | h1 <;> rw [hc] at h1
              · exact absurd h1 (by decide)
              · exact absurd h1 (by decide)
              · exact absurd h1.symm hstat
        | false =>
            by_cases hlt : qi.attempts + 1 < qi.max_attempts
            · have hEq := retry_post_failure_retry_eq
                { s with jobs := removeJob s.jobs j.id } qid now qi hfind hlt
              rw [hEq]
              have hfresh : ∀ k ∈ removeJob s.jobs j.id,
                  k.id ≠ JobId.retryJob qid now := by
                intro k hk hc
                exact hnone k hk (by rw [hc]; rfl)
              have haddEq : addJob (removeJob s.jobs j.id)
                    { id := JobId.retryJob qid now, run_date := now + 60 }
                  = removeJob s.jobs j.id
                    ++ [{ id := JobId.retryJob qid now, run_date := now + 60 }] :=
                addJob_of_fresh _ _ hfresh
              refine ⟨?_, ?_, ?_, ?_⟩
              · intro k hk
                rcases mem_updateQueueItem _ _ k hk with hk2 | ⟨hk2, _⟩
                · subst hk2
                  exact Nat.le_of_lt hlt
                · exact hInv.att_le k hk2
              · intro k hk qi' hqi' htgt
                have hk2 : k ∈ removeJob s.jobs j.id
                    ++ [{ id := JobId.retryJob qid now, run_date := now + 60 }] := by
                  rw [← haddEq]
                  exact hk
                rcases List.mem_append.mp hk2 with hk3 | hk3
                · rcases mem_updateQueueItem _ _ qi' hqi' with h2 | ⟨h2, hne⟩
                  · exfalso
                    subst h2
                    have h3 : retryTarget k.id = some qi.id := htgt
                    rw [hid] at h3
                    exact hnone k hk3 h3
                  · exact hInv.job_att k (mem_removeJob s.jobs j.id k hk3).1 qi' h2 htgt
                · rw [List.mem_singleton.mp hk3] at htgt
                  have h4 : some qid = some qi'.id := htgt
                  have h5 : qi'.id = qid := (Option.some.injEq _ _ ▸ h4).symm
                  rcases mem_updateQueueItem _ _ qi' hqi' with h2 | ⟨h2, hne⟩
                  · subst h2
                    exact ⟨Nat.succ_le_succ (Nat.zero_le _), hlt⟩
                  · exfalso
                    apply hne
                    have h6 : qi.id = qid := hid
                    show qi'.id = qi.id
                    rw [h5, h6]
              · intro k hk k' hk' q htgt htgt'
                have hk2 : k ∈ removeJob s.jobs j.id
                    ++ [{ id := JobId.retryJob qid now, run_date := now + 60 }] := by
                  rw [← haddEq]; exact hk
                have hk2' : k' ∈ removeJob s.jobs j.id
                    ++ [{ id := JobId.retryJob qid now, run_date := now + 60 }] := by
                  rw [← haddEq]; exact hk'
                rcases List.mem_append.mp hk2 with hk3 | hk3 <;>
                  rcases List.mem_append.mp hk2' with hk3' | hk3'
                · exact hInv.uniq k (mem_removeJob s.jobs j.id k hk3).1
                    k' (mem_removeJob s.jobs j.id k' hk3').1 q htgt htgt'
                · exfalso
                  rw [List.mem_singleton.mp hk3'] at htgt'
                  have h4 : some qid = some q := htgt'
                  have h5 : q = qid := (Option.some.injEq _ _ ▸ h4).symm
                  rw [h5] at htgt
                  exact hnone k hk3 htgt
                · exfalso
                  rw [List.mem_singleton.mp hk3] at htgt
                  have h4 : some qid = some q := htgt
                  have h5 : q = qid := (Option.some.injEq _ _ ▸ h4).symm
                  rw [h5] at htgt'
                  exact hnone k' hk3' htgt'
                · rw [List.mem_singleton.mp hk3, List.mem_singleton.mp hk3']
              · intro hc
                exact absurd hc hstat
            · have hEq := retry_post_failure_noretry_eq
                { s with jobs := removeJob s.jobs j.id } qid now qi hfind hlt
              rw [hEq]
              refine ⟨?_, ?_, ?_, ?_⟩
              · intro k hk
                rcases mem_updateQueueItem _ _ k hk with hk2 | ⟨hk2, _⟩
                · subst hk2
                  exact Nat.succ_le_of_lt hatt.2
                · exact hInv.att_le k hk2
              · intro k hk qi' hqi' htgt
                rcases mem_updateQueueItem _ _ qi' hqi' with h2 | ⟨h2, hne⟩
                · exfalso
                  subst h2
                  have h3 : retryTarget k.id = some qi.id := htgt
                  rw [hid] at h3
                  exact hnone k hk h3
                · exact hInv.job_att k (mem_removeJob s.jobs j.id k hk).1 qi' h2 htgt
              · intro k hk k' hk' q htgt htgt'
                exact hsubInv.uniq k hk k' hk' q htgt htgt'
              · intro hc
                exact absurd hc hstat

theorem sysInv_reachable (mA : Nat) (hmA : 1 ≤ mA) (postId : Nat)
    (platforms : List String) (s : SysState)
    (hr : Reachable mA (initState postId platforms) s) : SysInv s := by
  induction hr with
  | refl => exact inv_initState postId platforms
  | tail _ hbc ih =>
      cases hbc with
      | publish outcome now2 => exact sysInv_publish mA hmA _ ih outcome now2
      | retryFire j2 succ now2 hj2 => exact sysInv_retryFire _ ih j2 hj2 succ now2

/-- Dispatch of a single-platform post whose publish attempt fails
(attempts 0 → 1, retry at t + 30). -/
def c4Dispatch : SysState := publish_post (initState 1 ["a"]) (fun _ => false) 3 0

def c4Job1 : Job := { id := JobId.retryJob 0 0, run_date := 30 }

/-- First retry fires at t = 30 and fails (attempts 2, retry at 90). -/
def c4Retry1 : SysState := fireRetry c4Dispatch c4Job1 false 30

def c4Job2 : Job := { id := JobId.retryJob 0 30, run_date := 90 }

/-- Second retry fires at t = 90 and fails (attempts 3 = max, terminal). -/
def c4Final : SysState := fireRetry c4Retry1 c4Job2 false 90

theorem c4Final_reachable : Reachable 3 (initState 1 ["a"]) c4Final := by
  have h1 : Step 3 (initState 1 ["a"]) c4Dispatch :=
    Step.publish (initState 1 ["a"]) (fun _ => false) 0
  have h2 : Step 3 c4Dispatch c4Retry1 :=
    Step.retryFire c4Dispatch c4Job1 false 30 (by decide)
  have h3 : Step 3 c4Retry1 c4Final :=
    Step.retryFire c4Retry1 c4Job2 false 90 (by decide)
  exact Relation.ReflTransGen.head h1
    (Relation.ReflTransGen.head h2 (Relation.ReflTransGen.single h3))

/-- C4: along every dispatch/retry execution (with `maxAttempts ≥ 1`), a
task's `attempts` never exceeds `max_attempts`, and once a task is failed
with `attempts = max_attempts` no pending retry job is keyed to it; with
`maxAttempts = 3`, after three consecutive failures the task is failed with
`attempts = 3`, the post is failed, and the engine holds no job for it. -/
theorem attempts_never_exceed_max (mA postId : Nat) (platforms : List String)
    (s : SysState) (hmA : 1 ≤ mA)
    (hr : Reachable mA (initState postId platforms) s) :
    (∀ qi ∈ s.queue, qi.attempts ≤ qi.max_attempts) ∧
    (∀ qi ∈ s.queue, qi.status = "failed" → qi.attempts = qi.max_attempts →
       ∀ j ∈ s.jobs, retryTarget j.id ≠ some qi.id) ∧
    c4Final.post.status = "failed" ∧
    c4Final.queue.map (fun qi => qi.attempts) = [3] ∧
    c4Final.queue.map (fun qi => qi.status) = ["failed"] ∧
    c4Final.jobs = [] ∧
    Reachable 3 (initState 1 ["a"]) c4Final := by
  have hInv := sysInv_reachable mA hmA postId platforms s hr
  refine ⟨hInv.att_le, ?_, by decide, by decide, by decide, by decide, c4Final_reachable⟩
  intro qi hqi _ hmax j hj htgt
  have := hInv.job_att j hj qi hqi htgt
  omega

theorem attempts_never_exceed_max_witness :
    (∀ qi ∈ c4Final.queue, qi.attempts ≤ qi.max_attempts) ∧ c4Final.jobs = [] :=
  ⟨(attempts_never_exceed_max 3 1 ["a"] c4Final (by decide) c4Final_reachable).1,
   (attempts_never_exceed_max 3 1 ["a"] c4Final (by decide)
      c4Final_reachable).2.2.2.2.2.1⟩

theorem publishLoop_failed_next (postId : Nat) (outcome : String → Bool) (mA now : Nat) :
    ∀ (ps : List String) (qid : Nat),
      ∀ qi ∈ (publishLoop postId outcome mA now ps qid).items, qi.status = "failed" →
        qi.attempts = 1 ∧
        (qi.attempts < qi.max_attempts → qi.next_attempt = some (now + 30)) := by
  intro ps
  induction ps with
  | nil =>
      intro qid qi hqi
      simp [publishLoop] at hqi
  | cons p rest ih =>
      intro qid qi hqi hfail
      by_cases h : outcome p
      · simp only [publishLoop, h, if_true, List.mem_cons] at hqi
        rcases hqi with hqi | hqi
        · exfalso
          subst hqi
          simp [newQueueItem] at hfail
        · exact ih (qid + 1) qi hqi hfail
      · by_cases h2 : (1 : Nat) < mA
        · simp only [publishLoop, h, if_false, Bool.false_eq_true, ite_false,
            newQueueItem, h2, if_true, List.mem_cons] at hqi
          rcases hqi with hqi | hqi
          · subst hqi
            exact ⟨rfl, fun _ => rfl⟩
          · exact ih (qid + 1) qi hqi hfail
        · simp only [publishLoop, h, if_false, Bool.false_eq_true, ite_false,
            newQueueItem, h2, List.mem_cons] at hqi
          rcases hqi with hqi | hqi
          · subst hqi
            refine ⟨rfl, fun hc => ?_⟩
            exact absurd hc h2
          · exact ih (qid + 1) qi hqi hfail

theorem mem_addJob (jobs : List Job) (j : Job) : j ∈ addJob jobs j := by
  unfold addJob
  split
  · rename_i h
    simp only [List.any_eq_true, decide_eq_true_eq] at h
    obtain ⟨k, hk, hkid⟩ := h
    exact List.mem_map.mpr ⟨k, hk, by rw [if_pos hkid]⟩
  · simp

theorem new_mem_updateQueueItem (queue : List QueueItem) (qi new : QueueItem)
    (hmem : qi ∈ queue) (hid : qi.id = new.id) : new ∈ updateQueueItem queue new := by
  unfold updateQueueItem
  exact List.mem_map.mpr ⟨qi, hmem, by rw [if_pos hid]⟩

/-- C3: backoff policy.  A platform task that fails its first attempt during
dispatch has `attempts = 1` and `next_attempt = now + 30` minutes, and the
retry job fires 30 minutes out; a task that fails during a retry (a failed
attempt numbered ≥ 2 — every pending retry targets a row with
`attempts ≥ 1`) gets `next_attempt = now + 60` minutes and a retry job 60
minutes out. -/
theorem retry_backoff_policy :
    (∀ (postId : Nat) (outcome : String → Bool) (mA now : Nat) (ps : List String)
       (qid : Nat), ∀ qi ∈ (publishLoop postId outcome mA now ps qid).items,
         qi.status = "failed" → qi.attempts = 1 ∧
         (qi.attempts < qi.max_attempts → qi.next_attempt = some (now + 30)))
    ∧ (∀ (postId : Nat) (outcome : String → Bool) (mA now : Nat) (ps : List String)
       (qid : Nat), ∀ j ∈ (publishLoop postId outcome mA now ps qid).newJobs,
         j.run_date = now + 30)
    ∧ (∀ (s : SysState) (qid now : Nat) (qi : QueueItem),
       findQueueItem s.queue qid = some qi → qi.attempts + 1 < qi.max_attempts →
         ({ qi with status := "failed", attempts := qi.attempts + 1,
                    next_attempt := some (now + 60),
                    error_message := some "Unknown error" } : QueueItem)
             ∈ (retry_post s qid false now).queue
         ∧ ({ id := JobId.retryJob qid now, run_date := now + 60 } : Job)
             ∈ (retry_post s qid false now).jobs)
    ∧ (∀ (mA postId : Nat) (platforms : List String) (s : SysState), 1 ≤ mA →
       Reachable mA (initState postId platforms) s →
       ∀ j ∈ s.jobs, ∀ qi ∈ s.queue, retryTarget j.id = some qi.id →
         2 ≤ qi.attempts + 1) := by
  refine ⟨publishLoop_failed_next, ?_, ?_, ?_⟩
  · intro postId outcome mA now ps qid j hj
    obtain ⟨q, _, hr, _, _, _⟩ := publishLoop_jobs_mem postId outcome mA now ps qid j hj
    exact hr
  · intro s qid now qi hfind hlt
    obtain ⟨hmem, hid⟩ := findQueueItem_eq_some s.queue qid qi hfind
    rw [retry_post_failure_retry_eq s qid now qi hfind hlt]
    constructor
    · exact new_mem_updateQueueItem s.queue qi _ hmem rfl
    · exact mem_addJob s.jobs _
  · intro mA postId platforms s hmA hr j hj qi hqi htgt
    have hInv := sysInv_reachable mA hmA postId platforms s hr
    have := hInv.job_att j hj qi hqi htgt
    omega

def c4FailedItem : QueueItem :=
  { id := 0, post_id := 1, platform := "a", status := "failed", attempts := 1,
    max_attempts := 3, next_attempt := some 30,
    error_message := some "Unknown error", completed_at := none }

theorem retry_backoff_policy_witness :
    (c4FailedItem.attempts = 1 ∧ c4FailedItem.next_attempt = some (0 + 30)) ∧
    (∀ j ∈ (publishLoop 1 (fun _ => false) 3 0 ["a"] 0).newJobs, j.run_date = 0 + 30) ∧
    (({ c4FailedItem with attempts := 2, next_attempt := some (30 + 60) } : QueueItem)
      ∈ (retry_post c4Dispatch 0 false 30).queue) :=
  ⟨(fun h => ⟨h.1, h.2 (by decide)⟩)
     (retry_backoff_policy.1 1 (fun _ => false) 3 0 ["a"] 0 c4FailedItem
       (by decide) (by decide)),
   retry_backoff_policy.2.1 1 (fun _ => false) 3 0 ["a"] 0,
   by
     have h := (retry_backoff_policy.2.2.1 c4Dispatch 0 30 c4FailedItem
       (by decide) (by decide)).1
     exact h⟩

/- ------------------------------------------------------------------
Bulk upload counting: `process_bulk_upload` (src/scheduler.py lines
194-271).  The caller (src/routes.py line 176) creates the BulkUpload row
with `total_posts = len(posts_data)`.
------------------------------------------------------------------ -/

/-- One item of `posts_data`.  `content = none` models a malformed item
(`post_data['content']` raises, caught by the per-item handler); `schedOk`
is the oracle for whether `schedule_post` returns True (it catches its own
exceptions and returns False on failure). -/
structure BulkItem where
  content : Option String
  platforms : List String
  schedOk : Bool
deriving DecidableEq, Repr

/-- Modelled from the spec where absent from src/models.py: the BulkUpload
counters used by src/scheduler.py (`failed_posts` is not a declared column;
the spec's BulkBatch carries processedCount and failedCount, starting at
0). -/
structure BulkState where
  total_posts : Nat
  processed_posts : Nat
  failed_posts : Nat
  status : String
deriving DecidableEq, Repr

/-- Lines 210-216 of src/scheduler.py: an item with no requested platforms
uses all connected platforms, otherwise the requested ones that are
connected. -/
def resolvePlatforms (connected requested : List String) : List String :=
  if requested = [] then connected else requested.filter (fun p => connected.contains p)

/-- One iteration of the per-item loop (lines 207-256): empty resolved
platform set → `failed_posts += 1` and continue; an exception while
building the post (malformed item) → `failed_posts += 1`; otherwise
`processed_posts += 1` when `schedule_post` succeeds, else
`failed_posts += 1`. -/
def processBulkItem (connected : List String) (b : BulkState) (item : BulkItem) :
    BulkState :=
  if resolvePlatforms connected item.platforms = [] then
    { b with failed_posts := b.failed_posts + 1 }
  else
    match item.content with
    | none => { b with failed_posts := b.failed_posts + 1 }
    | some _ =>
      if item.schedOk then { b with processed_posts := b.processed_posts + 1 }
      else { b with failed_posts := b.failed_posts + 1 }

def processBulkItems (connected : List String) (b : BulkState)
    (items : List BulkItem) : BulkState :=
  items.foldl (processBulkItem connected) b

/-- The BulkUpload row as created by the caller: `total_posts` is the item
count, counters 0, status processing. -/
def initBulkState (items : List BulkItem) : BulkState :=
  { total_posts := items.length, processed_posts := 0, failed_posts := 0,
    status := "processing" }

/-- `process_bulk_upload`: run the loop over all items, then mark the batch
completed (line 259). -/
def process_bulk_upload_run (connected : List String) (items : List BulkItem) :
    BulkState :=
  let b := processBulkItems connected (initBulkState items) items
  { b with status := "completed" }

theorem processBulkItem_step (connected : List String) (b : BulkState)
    (item : BulkItem) :
    (processBulkItem connected b item).processed_posts
        + (processBulkItem connected b item).failed_posts
      = b.processed_posts + b.failed_posts + 1
    ∧ (processBulkItem connected b item).total_posts = b.total_posts
    ∧ (processBulkItem connected b item).status = b.status := by
  unfold processBulkItem
  by_cases h1 : resolvePlatforms connected item.platforms = []
  · simp [h1]
    omega
  · rcases hc : item.content with _ | c
    · simp [h1, hc]
      omega
    · by_cases h2 : item.schedOk
      · simp [h1, hc, h2]
        omega
      · simp [h1, hc, h2]
        omega

theorem processBulkItems_sum (connected : List String) :
    ∀ (items : List BulkItem) (b : BulkState),
      (processBulkItems connected b items).processed_posts
          + (processBulkItems connected b items).failed_posts
        = b.processed_posts + b.failed_posts + items.length
      ∧ (processBulkItems connected b items).total_posts = b.total_posts
      ∧ (processBulkItems connected b items).status = b.status := by
  intro items
  induction items with
  | nil =>
      intro b
      simp [processBulkItems]
  | cons item rest ih =>
      intro b
      have hstep := processBulkItem_step connected b item
      have hrec := ih (processBulkItem connected b item)
      have hunf : processBulkItems connected b (item :: rest)
          = processBulkItems connected (processBulkItem connected b item) rest := rfl
      rw [hunf]
      refine ⟨?_, ?_, ?_⟩
      · rw [hrec.1, hstep.1]
        simp only [List.length_cons]
        omega
      · rw [hrec.2.1, hstep.2.1]
      · rw [hrec.2.2, hstep.2.2]

/-- The 10-item batch of the C9 scenario: every item is well-formed and
schedulable, but item 7 (index 6) requests only "youtube" while the owner
has tiktok and instagram connected, so its resolved platform set is
empty. -/
def c9Item (ps : List String) : BulkItem :=
  { content := some "c", platforms := ps, schedOk := true }

def c9Items : List BulkItem :=
  [c9Item [], c9Item [], c9Item [], c9Item [], c9Item [], c9Item [],
   c9Item ["youtube"], c9Item [], c9Item [], c9Item []]

/-- C9: each per-item failure adds one to `failed_posts` and each success
one to `processed_posts` (exactly one of the two per item), so after any
prefix of `k` items the counters sum to `k ≤ total_posts`; the batch status
becomes completed only after the loop has accounted for every item, with
the counters summing to `total_posts`; and the 10-item batch whose item 7
resolves to an empty platform set ends with 9 processed, 1 failed,
completed. -/
theorem bulk_counts_correct (connected : List String) (items : List BulkItem)
    (k : Nat) (hk : k ≤ items.length) :
    ((processBulkItems connected (initBulkState items) (items.take k)).processed_posts
        + (processBulkItems connected (initBulkState items) (items.take k)).failed_posts
      = k
      ∧ k ≤ (initBulkState items).total_posts)
    ∧ ((process_bulk_upload_run connected items).status = "completed"
      ∧ (process_bulk_upload_run connected items).processed_posts
          + (process_bulk_upload_run connected items).failed_posts
        = (process_bulk_upload_run connected items).total_posts)
    ∧ ((process_bulk_upload_run ["tiktok", "instagram"] c9Items).processed_posts = 9
      ∧ (process_bulk_upload_run ["tiktok", "instagram"] c9Items).failed_posts = 1
      ∧ (process_bulk_upload_run ["tiktok", "instagram"] c9Items).status
          = "completed") := by
  refine ⟨⟨?_, ?_⟩, ⟨?_, ?_⟩, by decide, by decide, by decide⟩
  · have h := (processBulkItems_sum connected (items.take k) (initBulkState items)).1
    rw [h]
    simp [initBulkState]
    omega
  · exact hk
  · rfl
  · have h := processBulkItems_sum connected items (initBulkState items)
    show (processBulkItems connected (initBulkState items) items).processed_posts
        + (processBulkItems connected (initBulkState items) items).failed_posts
      = (processBulkItems connected (initBulkState items) items).total_posts
    rw [h.1, h.2.1]
    simp [initBulkState]

theorem bulk_counts_correct_witness :
    ((processBulkItems ["tiktok", "instagram"] (initBulkState c9Items)
        (c9Items.take 7)).processed_posts
      + (processBulkItems ["tiktok", "instagram"] (initBulkState c9Items)
        (c9Items.take 7)).failed_posts = 7)
    ∧ (process_bulk_upload_run ["tiktok", "instagram"] c9Items).processed_posts = 9 :=
  ⟨(bulk_counts_correct ["tiktok", "instagram"] c9Items 7 (by decide)).1.1,
   (bulk_counts_correct ["tiktok", "instagram"] c9Items 7 (by decide)).2.2.1⟩

/- ------------------------------------------------------------------
Background polling pass: `SchedulingService._process_due_posts`
(src/bulk_upload_service.py lines 325-339).
------------------------------------------------------------------ -/

/-- The Post columns the due-post query reads. -/
structure DuePost where
  id : Nat
  status : String
  scheduled_time : Nat
deriving DecidableEq, Repr

/-- The query predicate: `Post.status == 'scheduled'` and
`Post.scheduled_time <= datetime.now()`. -/
def isDue (now : Nat) (p : DuePost) : Bool :=
  p.status == "scheduled" && decide (p.scheduled_time ≤ now)

/-- The due-post query with its `.limit(10)`. -/
def dueQuery (posts : List DuePost) (now : Nat) : List DuePost :=
  (posts.filter (isDue now)).take 10

def selectedIds (posts : List DuePost) (now : Nat) : List Nat :=
  (dueQuery posts now).map (fun p => p.id)

/-- Effect of one polling pass on a single stored post: rows returned by the
query are processed (`f`), every other row is left untouched. -/
def passStep (selIds : List Nat) (f : DuePost → DuePost) (p : DuePost) : DuePost :=
  if p.id ∈ selIds then f p else p

def processDuePass (posts : List DuePost) (now : Nat) (f : DuePost → DuePost) :
    List DuePost :=
  posts.map (passStep (selectedIds posts now) f)

/-- C10: a polling pass selects at most 10 posts; a post is selected only if
it is `scheduled` and due; and (for distinct row ids) every due post beyond
the first 10 is left untouched by the pass. -/
theorem due_poll_selects_at_most_ten (posts : List DuePost) (now : Nat)
    (f : DuePost → DuePost) :
    (dueQuery posts now).length ≤ 10
    ∧ (∀ p ∈ dueQuery posts now, p.status = "scheduled" ∧ p.scheduled_time ≤ now)
    ∧ ((posts.map (fun p => p.id)).Nodup →
       ∀ p ∈ (posts.filter (isDue now)).drop 10,
         passStep (selectedIds posts now) f p = p) := by
  refine ⟨?_, ?_, ?_⟩
  · exact List.length_take_le 10 _
  · intro p hp
    have hmem := List.mem_of_mem_take hp
    have hdue := (List.mem_filter.mp hmem).2
    simp only [isDue, Bool.and_eq_true, beq_iff_eq, decide_eq_true_eq] at hdue
    exact hdue
  · intro hnodup p hp
    have hfil : ((posts.filter (isDue now)).map (fun p => p.id)).Nodup :=
      List.Nodup.sublist (List.Sublist.map _ (List.filter_sublist posts)) hnodup
    have hsplit : posts.filter (isDue now)
        = (posts.filter (isDue now)).take 10 ++ (posts.filter (isDue now)).drop 10 :=
      (List.take_append_drop 10 _).symm
    have hnotmem : ¬ p.id ∈ selectedIds posts now := by
      intro hc
      have h1 : p.id ∈ ((posts.filter (isDue now)).take 10).map (fun p => p.id) := hc
      have h2 : p.id ∈ ((posts.filter (isDue now)).drop 10).map (fun p => p.id) :=
        List.mem_map_of_mem _ hp
      rw [hsplit, List.map_append] at hfil
      exact (List.nodup_append.mp hfil).2.2 h1 h2
    unfold passStep
    rw [if_neg hnotmem]

def c10Post (i : Nat) : DuePost := { id := i, status := "scheduled", scheduled_time := i }

def c10Posts : List DuePost :=
  [c10Post 0, c10Post 1, c10Post 2, c10Post 3, c10Post 4, c10Post 5, c10Post 6,
   c10Post 7, c10Post 8, c10Post 9, c10Post 10, c10Post 11]

theorem due_poll_selects_at_most_ten_witness :
    (dueQuery c10Posts 100).length ≤ 10
    ∧ ((c10Post 0).status = "scheduled" ∧ (c10Post 0).scheduled_time ≤ 100)
    ∧ passStep (selectedIds c10Posts 100) (fun q => { q with status := "posting" })
        (c10Post 10) = c10Post 10 :=
  ⟨(due_poll_selects_at_most_ten c10Posts 100
      (fun q => { q with status := "posting" })).1,
   (due_poll_selects_at_most_ten c10Posts 100
      (fun q => { q with status := "posting" })).2.1 (c10Post 0) (by decide),
   (due_poll_selects_at_most_ten c10Posts 100
      (fun q => { q with status := "posting" })).2.2 (by decide) (c10Post 10) (by decide)⟩
